import Mathlib

/-!
Verification of the `traceb` module (an alternative `traceback` formatter
with verbose / compact / compressed modes, optional argument display and a
monkey-patch installer).

The Python source (`traceb.py`) is embedded shallowly:

* a stack-frame record (`Frame`) carries the data that the stack-inspection
  service (the `tb_frame` / `f_code` / `linecache` collaborators) provides
  for one frame: file name, line number, function name, the argument
  formatter's output for the frame, and the raw source line returned by
  `linecache.getline` (the empty string models a cache miss);
* an extracted entry (`Entry`) is the quadruple
  `(filename, lineno, name, line)` built by `extract_tb` / `extract_stack`;
* the shared `while x is not None and (limit is None or n < limit)` loop of
  `extract_tb`, `extract_stack` and `print_tb` is the function `walk`;
* output written to a file-like sink is modelled as the `String` of all
  bytes written, with `_print` appending its default terminator;
* Python call-argument binding for `format_list` (whose signature is
  `def format_list(extracted_list, tb_mode='compact')`) is modelled by
  `format_list_call`, which raises `TypeError` (as `Except.error`) on
  extra positional arguments or unexpected keywords, exactly as CPython
  binds a call.

The code base targets Python 2 (`types.InstanceType`, `unicode`, print
statements in the examples), so `/` on integers is floor division.
-/

/-- The whitespace test used by Python's `str.strip` / `str.isspace`. -/
def pyIsSpaceChar (c : Char) : Bool :=
  c = ' ' || c = '\t' || c = '\n' || c = '\x0b' || c = '\x0c' || c = '\r'

/-- Python `s.lstrip()`. -/
def pyLstrip (s : String) : String :=
  String.mk (s.data.dropWhile pyIsSpaceChar)

/-- Python `s.rstrip()`. -/
def pyRstrip (s : String) : String :=
  String.mk ((s.data.reverse.dropWhile pyIsSpaceChar).reverse)

/-- Python `s.strip()`. -/
def pyStrip (s : String) : String :=
  pyLstrip (pyRstrip s)

/-- Python `s.rstrip('\n')`. -/
def pyRstripNl (s : String) : String :=
  String.mk ((s.data.reverse.dropWhile (fun c => c = '\n')).reverse)

/-- Python `s[:stop]` for an `int` bound `stop` (negative bounds count from
the end, clamped at zero characters). -/
def pySliceTo (s : String) (stop : Int) : String :=
  if stop < 0 then String.mk (s.data.take (s.data.length - (-stop).toNat))
  else String.mk (s.data.take stop.toNat)

/-- Python `s[start:]` for an `int` bound `start` (a negative bound counts
from the end, keeping at most the last `-start` characters). -/
def pySliceFrom (s : String) (start : Int) : String :=
  if start < 0 then String.mk (s.data.drop (s.data.length - (-start).toNat))
  else String.mk (s.data.drop start.toNat)

/-- Python `s[:n]` for a non-negative `n`. -/
def strHead (n : Nat) (s : String) : String :=
  String.mk (s.data.take n)

/-- Python `s[-n:]` for a positive `n` (the whole string when shorter). -/
def strTail (n : Nat) (s : String) : String :=
  String.mk (s.data.drop (s.data.length - n))

/-- `_print(file, str, terminator='\n')` writes `str + terminator`; the
result is the chunk of bytes appended to the sink. -/
def _print (s : String) : String :=
  s ++ "\n"

/-- `_MaxParamLength = 25`. -/
def _MaxParamLength : Nat := 25

/-- `_format_value`, from the point where the identity-stripping
substitution `re.sub('<(.+?) at .*?>', ...)` has produced the printable
representation `s` of the value: truncate to head/ellipsis/tail when longer
than `_MaxParamLength`, then prefix `'='`.  The slice bounds follow Python 2
arithmetic, where `/` on integers is floor division (`Int.fdiv`) and unary
minus binds tighter than `/`: the head bound `_MaxParamLength/2` is `12`,
while the tail bound `-_MaxParamLength/2` is `(-25)/2 = -13`, so `s[-13:]`
keeps the last 13 characters. -/
def _format_value (s : String) : String :=
  let t :=
    if _MaxParamLength < s.length then
      pySliceTo s (Int.fdiv (_MaxParamLength : Int) 2) ++ "......"
        ++ pySliceFrom s (Int.fdiv (-(_MaxParamLength : Int)) 2)
    else s
  "=" ++ t

/-- One pre-processed stack trace entry: the quadruple
`(filename, line number, function name, text)` built by the extractors. -/
structure Entry where
  filename : String
  lineno : Int
  name : String
  line : Option String
deriving DecidableEq, Repr

/-- `': %s' % line if line else ''` — the source-text suffix used by the
compact and compressed renderers (`None` and `''` are falsy). -/
def lineSuffix (l : Option String) : String :=
  match l with
  | some s => if s.isEmpty then "" else ": " ++ s
  | none => ""

/-- `_format_compressed_line`. -/
def _format_compressed_line (e : Entry) : String :=
  let filename := if 30 < e.filename.length then "[...]" ++ strTail 25 e.filename else e.filename
  "  " ++ filename ++ ", " ++ e.name ++ ", " ++ toString e.lineno ++ lineSuffix e.line ++ "\n"

/-- `_format_compact_line`. -/
def _format_compact_line (e : Entry) : String :=
  "  File \"" ++ e.filename ++ "\", in " ++ e.name ++ " at line " ++ toString e.lineno
    ++ lineSuffix e.line ++ "\n"

/-- `_format_line` (the verbose renderer). -/
def _format_line (e : Entry) : String :=
  let item := "  File \"" ++ e.filename ++ "\", line " ++ toString e.lineno ++ ", in " ++ e.name ++ "\n"
  match e.line with
  | some l => if l.isEmpty then item else item ++ "    " ++ pyStrip l ++ "\n"
  | none => item

/-- The three renderer values that can appear in `_FMT_LINE_MAP`: the two
preset entries plus the default-factory result `_format_line`. -/
inductive FmtKind where
  | verbose
  | compact
  | compressed
deriving DecidableEq, Repr

/-- Which renderer function each `FmtKind` tag denotes. -/
def fmtFun : FmtKind → Entry → String
  | FmtKind.verbose => _format_line
  | FmtKind.compact => _format_compact_line
  | FmtKind.compressed => _format_compressed_line

/-- The initial contents of the module-level dispatch table
`_FMT_LINE_MAP = collections.defaultdict(lambda: _format_line,
{'compressed': ..., 'compact': ...})`, as an association list. -/
def initFmtMap : List (String × FmtKind) :=
  [("compressed", FmtKind.compressed), ("compact", FmtKind.compact)]

/-- `defaultdict` subscript lookup `_FMT_LINE_MAP[tb_mode]`: a present key
returns its value and leaves the table alone; a missing key runs the
default factory (which yields `_format_line`), stores the result under the
key, and returns it. -/
def ddGet (m : List (String × FmtKind)) (k : String) : FmtKind × List (String × FmtKind) :=
  match m.lookup k with
  | some v => (v, m)
  | none => (FmtKind.verbose, m ++ [(k, FmtKind.verbose)])

/-- `format_list(extracted_list, tb_mode='compact')` together with the
dispatch-table state it leaves behind (`m` is the current contents of
`_FMT_LINE_MAP`). -/
def format_listS (m : List (String × FmtKind)) (extracted_list : List Entry)
    (tb_mode : String) : List String × List (String × FmtKind) :=
  let fm := ddGet m tb_mode
  (extracted_list.map (fmtFun fm.1), fm.2)

/-- `format_list` output, from the table's initial state (insertions only
ever bind missing keys to the default `_format_line`, so the output does
not depend on which unknown modes were looked up before). -/
def format_list (extracted_list : List Entry) (tb_mode : String) : List String :=
  (format_listS initFmtMap extracted_list tb_mode).1

/-- One frame of the stack-inspection collaborator: the location data, the
argument formatter's output (`_format_args(f)`) for the frame, and the raw
`linecache.getline` result (empty string when the source is unavailable). -/
structure Frame where
  filename : String
  lineno : Int
  name : String
  argsFmt : String
  rawLine : String
deriving DecidableEq, Repr

/-- `if line: line = line.strip() else: line = None` — the entry text. -/
def entryLine (raw : String) : Option String :=
  if raw.isEmpty then none else some (pyStrip raw)

/-- The entry `extract_tb` appends for one traceback node (with the
`if show_args: name += _format_args(f)` annotation). -/
def tbEntry (show_args : Bool) (f : Frame) : Entry :=
  { filename := f.filename, lineno := f.lineno,
    name := if show_args then f.name ++ f.argsFmt else f.name,
    line := entryLine f.rawLine }

/-- The entry `extract_stack` appends for one live frame (`extract_stack`
has no show-arguments parameter, so the name is never annotated). -/
def stackEntry (f : Frame) : Entry :=
  { filename := f.filename, lineno := f.lineno, name := f.name,
    line := entryLine f.rawLine }

/-- The loop guard `limit is None or n < limit`. -/
def underLimit (limit : Option Int) (n : Nat) : Bool :=
  match limit with
  | none => true
  | some l => (n : Int) < l

/-- The shared loop of `extract_tb`, `extract_stack` and `print_tb`:
`while x is not None and (limit is None or n < limit): emit(x); x = next(x);
n = n + 1`, where the chain is given as the list of nodes in traversal
order and `g` is what the body emits for one node. -/
def walk {α : Type} (g : Frame → α) (limit : Option Int) : List Frame → Nat → List α
  | [], _ => []
  | f :: fs, n => if underLimit limit n then g f :: walk g limit fs (n + 1) else []

/-- `if limit is None: if hasattr(sys, 'tracebacklimit'): limit =
sys.tracebacklimit` — `sysTbLimit` models the optional process-wide
attribute `sys.tracebacklimit`. -/
def effectiveLimit (limit : Option Int) (sysTbLimit : Option Int) : Option Int :=
  match limit with
  | none => sysTbLimit
  | some l => some l

/-- `extract_tb(tb, limit=None, show_args=False)`; `tb` is the traceback
chain in traversal order (outermost call first). -/
def extract_tb (sysTbLimit : Option Int) (tb : List Frame) (limit : Option Int)
    (show_args : Bool) : List Entry :=
  walk (tbEntry show_args) (effectiveLimit limit sysTbLimit) tb 0

/-- `extract_stack(f=None, limit=None)`; `f` is the live frame chain in
traversal order (innermost frame first, following `f_back`), and the
collected entries are reversed at the end. -/
def extract_stack (sysTbLimit : Option Int) (f : List Frame) (limit : Option Int) :
    List Entry :=
  (walk stackEntry (effectiveLimit limit sysTbLimit) f 0).reverse

/-- The bytes `print_tb` writes for one traceback node: the header via
`_print`, then `if line: _print(file, '    ' + line.strip())`. -/
def print_tb_entry (f : Frame) : String :=
  _print ("  File \"" ++ f.filename ++ "\", line " ++ toString f.lineno ++ ", in " ++ f.name)
    ++ (if f.rawLine.isEmpty then "" else _print ("    " ++ pyStrip f.rawLine))

/-- `print_tb(tb, limit=None, file=None)`: the bytes written to the sink. -/
def print_tb (sysTbLimit : Option Int) (tb : List Frame) (limit : Option Int) : String :=
  String.join (walk print_tb_entry (effectiveLimit limit sysTbLimit) tb 0)

/-- The exception type argument `etype` of `format_exception_only`: either a
class (with its `__name__` and whether it is a subclass of `SyntaxError`),
or one of the degenerate early-return shapes (an exception instance, `None`,
or a plain string), carrying the text `'%s' % etype` renders for it. -/
inductive EType where
  | cls (name : String) (isSyntaxSub : Bool)
  | degenerate (reprForLine : String)
deriving DecidableEq, Repr

/-- The result of unpacking `msg, (filename, lineno, offset, badline) =
value.args` in the `SyntaxError` branch.  `msg` is modelled by its
`None`-ness and its string form, since it is reused as the value of the
final summary line. -/
structure SyntaxDetails where
  msgIsNone : Bool
  msgStr : String
  filename : Option String
  lineno : Int
  offset : Option Int
  badline : Option String
deriving DecidableEq, Repr

/-- The exception value argument: `text` is `_some_str(value)` (that helper
is total — on a failing `str()` it falls back to a placeholder), `isNone`
records `value is None`, and `syntaxUnpack` is the result of attempting the
`SyntaxError` unpacking of `value.args` (`none` when the `try` fails). -/
structure ExcValue where
  text : String
  isNone : Bool
  syntaxUnpack : Option SyntaxDetails
deriving DecidableEq, Repr

/-- `_format_final_exc_line(etype, value)` given the type label and the
value's `None`-ness and string form. -/
def _format_final_exc_line (etype : String) (valueIsNone : Bool) (valuestr : String) : String :=
  if valueIsNone || valuestr.isEmpty then etype ++ "\n"
  else etype ++ ": " ++ valuestr ++ "\n"

/-- `filename = filename or "<string>"` (`None` and `''` are falsy). -/
def seFilename (fn : Option String) : String :=
  match fn with
  | some s => if s.isEmpty then "<string>" else s
  | none => "<string>"

/-- The caret-line prefix computed in the `SyntaxError` branch:
`offset = min(len(caretspace), offset) - 1`, slice, `lstrip`, then keep
whitespace characters and replace every other character with a space
(`c.isspace() and c or ' '`). -/
def caretSpaces (badline : String) (offset : Int) : String :=
  let caretspace := pyRstripNl badline
  let off := min (caretspace.length : Int) offset - 1
  let sliced := pyLstrip (pySliceTo caretspace off)
  String.mk (sliced.data.map (fun c => if pyIsSpaceChar c then c else ' '))

/-- The lines appended after the file/line header in the `SyntaxError`
branch: the stripped bad line (when present), then the caret line (when an
offset is present). -/
def syntaxBodyLines (d : SyntaxDetails) : List String :=
  match d.badline with
  | none => []
  | some bl =>
    let srcLine := "    " ++ pyStrip bl ++ "\n"
    match d.offset with
    | none => [srcLine]
    | some off => [srcLine, "    " ++ caretSpaces bl off ++ "^\n"]

/-- `format_exception_only(etype, value)`. -/
def format_exception_only (etype : EType) (v : ExcValue) : List String :=
  match etype with
  | EType.degenerate s => [_format_final_exc_line s v.isNone v.text]
  | EType.cls stype isSyntaxSub =>
    if !isSyntaxSub then [_format_final_exc_line stype v.isNone v.text]
    else
      match v.syntaxUnpack with
      | none => [_format_final_exc_line stype v.isNone v.text]
      | some d =>
        ("  File \"" ++ seFilename d.filename ++ "\", line " ++ toString d.lineno ++ "\n")
          :: syntaxBodyLines d
          ++ [_format_final_exc_line stype d.msgIsNone d.msgStr]

/-- `format_tb(tb, limit=None, tb_mode='compact', show_args=False)` =
`format_list(extract_tb(tb, limit, show_args), tb_mode)`. -/
def format_tb (sysTbLimit : Option Int) (tb : List Frame) (limit : Option Int)
    (tb_mode : String) (show_args : Bool) : List String :=
  format_list (extract_tb sysTbLimit tb limit show_args) tb_mode

/-- `format_exception(etype, value, tb, limit=None, tb_mode='compact',
show_args=False)`; an empty chain models a falsy `tb`. -/
def format_exception (sysTbLimit : Option Int) (etype : EType) (v : ExcValue)
    (tb : List Frame) (limit : Option Int) (tb_mode : String) (show_args : Bool) :
    List String :=
  (if tb.isEmpty then []
   else "Traceback (most recent call last):\n" :: format_tb sysTbLimit tb limit tb_mode show_args)
    ++ format_exception_only etype v

/-- `print_exception(...)`: the bytes written to the sink, i.e.
`_print(file, "".join(format_exception(...)))`. -/
def print_exception (sysTbLimit : Option Int) (etype : EType) (v : ExcValue)
    (tb : List Frame) (limit : Option Int) (tb_mode : String) (show_args : Bool) :
    String :=
  _print (String.join (format_exception sysTbLimit etype v tb limit tb_mode show_args))

/-- A Python value appearing as a call argument to `format_list`. -/
inductive PyVal where
  | entries (l : List Entry)
  | str (s : String)
  | bool (b : Bool)
  | pynone
deriving DecidableEq, Repr

/-- CPython argument binding for
`def format_list(extracted_list, tb_mode='compact')` applied to positional
arguments `pos` and keyword arguments `kw`: a third positional argument, an
unexpected keyword (such as `show_args`), a duplicated or missing
`extracted_list`, all raise `TypeError`; otherwise the body runs.  A
non-list `extracted_list` fails when iterated; a non-string `tb_mode` is a
valid dictionary key that matches neither preset entry, so it selects the
default renderer. -/
def format_list_call (pos : List PyVal) (kw : List (String × PyVal)) :
    Except String (List String) :=
  if 2 < pos.length then
    Except.error "TypeError: format_list() takes at most 2 arguments"
  else if kw.any (fun p => p.1 != "extracted_list" && p.1 != "tb_mode") then
    Except.error "TypeError: format_list() got an unexpected keyword argument"
  else
    let lst? : Except String PyVal :=
      match pos with
      | v :: _ =>
        if (kw.lookup "extracted_list").isSome then
          Except.error "TypeError: format_list() got multiple values for argument"
        else Except.ok v
      | [] =>
        match kw.lookup "extracted_list" with
        | some v => Except.ok v
        | none => Except.error "TypeError: format_list() missing required argument"
    let mode? : Except String (Option PyVal) :=
      match pos with
      | _ :: v :: _ =>
        if (kw.lookup "tb_mode").isSome then
          Except.error "TypeError: format_list() got multiple values for argument"
        else Except.ok (some v)
      | _ => Except.ok (kw.lookup "tb_mode")
    match lst?, mode? with
    | Except.error e, _ => Except.error e
    | _, Except.error e => Except.error e
    | Except.ok (PyVal.entries l), Except.ok m =>
      match m with
      | none => Except.ok (format_list l "compact")
      | some (PyVal.str s) => Except.ok (format_list l s)
      | some _ => Except.ok (l.map _format_line)
    | Except.ok _, Except.ok _ =>
      Except.error "TypeError: argument is not iterable"

/-- `format_stack(f=None, limit=None, tb_mode='compact', show_args=False)`:
its body calls `format_list(extract_stack(f, limit), tb_mode, show_args)`,
i.e. `format_list` with three positional arguments. -/
def format_stack (sysTbLimit : Option Int) (f : List Frame) (limit : Option Int)
    (tb_mode : String) (show_args : Bool) : Except String (List String) :=
  format_list_call
    [PyVal.entries (extract_stack sysTbLimit f limit), PyVal.str tb_mode, PyVal.bool show_args]
    []

/-- `print_list(extracted_list, file=None, tb_mode='compact',
show_args=False)`: its body calls `format_list(extracted_list, tb_mode,
show_args)` and then `_print(file, "".join(lst))`. -/
def print_list (extracted_list : List Entry) (tb_mode : String) (show_args : Bool) :
    Except String String :=
  (format_list_call [PyVal.entries extracted_list, PyVal.str tb_mode, PyVal.bool show_args]
    []).map (fun lst => _print (String.join lst))

/-- The namespace entry `monkey_patch(**options)` installs for
`format_list`: a pre-application that forwards the fixed keyword options,
so a call with one positional argument performs
`format_list(extracted_list, tb_mode=..., show_args=...)`. -/
def patched_format_list (tb_mode : String) (show_args : Bool)
    (extracted_list : List Entry) : Except String (List String) :=
  format_list_call [PyVal.entries extracted_list]
    [("tb_mode", PyVal.str tb_mode), ("show_args", PyVal.bool show_args)]

/-- The namespace entry `monkey_patch(**options)` installs for `format_tb`:
`format_tb` accepts both fixed keywords, so a call with a traceback handle
binds them onto the corresponding parameters. -/
def patched_format_tb (sysTbLimit : Option Int) (tb_mode : String) (show_args : Bool)
    (tb : List Frame) : List String :=
  format_tb sysTbLimit tb none tb_mode show_args

/-- Demonstration frames for the 3-level call chain `h -> g -> f` of the
example scripts (`h` is the oldest/outermost call). -/
def frameH : Frame :=
  { filename := "ex.py", lineno := 14, name := "h", argsFmt := "(a=1, b=0)",
    rawLine := "  g(a+1, b)\n" }

def frameG : Frame :=
  { filename := "ex.py", lineno := 11, name := "g", argsFmt := "(a=2, b=0)",
    rawLine := "  f(a+1, b)\n" }

def frameF : Frame :=
  { filename := "ex.py", lineno := 8, name := "f", argsFmt := "(a=3, b=0)",
    rawLine := "  div(a+1, b)\n" }

/-- The syntax-error payload of the specification's caret example:
message `"invalid syntax"`, location `("f.py", 3, 5, "x == = 1\n")`. -/
def demoSynDetails : SyntaxDetails :=
  { msgIsNone := false, msgStr := "invalid syntax", filename := some "f.py",
    lineno := 3, offset := some 5, badline := some "x == = 1\n" }

/-- A `SyntaxError` value whose `args` unpack as `demoSynDetails`. -/
def demoSynVal : ExcValue :=
  { text := "invalid syntax", isNone := false, syntaxUnpack := some demoSynDetails }

/-- A degenerate exception value with no syntax-error payload. -/
def demoPlainVal : ExcValue :=
  { text := "boom", isNone := false, syntaxUnpack := none }

/-! ### General lemmas about the shared extraction loop -/

/-- With no limit, the loop visits the whole chain. -/
theorem walk_none {α : Type} (g : Frame → α) :
    ∀ (fs : List Frame) (n : Nat), walk g none fs n = fs.map g := by
  intro fs
  induction fs with
  | nil => intro n; rfl
  | cons f fs ih =>
    intro n
    simp [walk, underLimit, ih]

/-- With limit `l` and counter `n`, the loop visits the first
`(l - n).toNat` nodes of the chain. -/
theorem walk_some {α : Type} (g : Frame → α) :
    ∀ (fs : List Frame) (l : Int) (n : Nat),
      walk g (some l) fs n = (fs.take (l - n).toNat).map g := by
  intro fs
  induction fs with
  | nil => intro l n; simp [walk]
  | cons f fs ih =>
    intro l n
    by_cases h : (n : Int) < l
    · have ht : (l - (n : Int)).toNat = (l - ((n + 1 : Nat) : Int)).toNat + 1 := by
        push_cast
        omega
      simp [walk, underLimit, h, ht, ih]
    · have ht : (l - (n : Int)).toNat = 0 := by omega
      simp [walk, underLimit, h, ht]

/-- Association-list lookup after appending a binding for a key that was
absent. -/
theorem lookup_append_absent {β : Type} (k : String) (v : β) :
    ∀ (m : List (String × β)), m.lookup k = none →
      (m ++ [(k, v)]).lookup k = some v := by
  intro m
  induction m with
  | nil => intro _; simp [List.lookup]
  | cons p m ih =>
    intro h
    simp only [List.lookup, List.cons_append] at h ⊢
    cases hk : (k == p.1) with
    | true => simp [hk] at h
    | false => simp only [hk] at h ⊢; exact ih h

/-- Keys other than the appended one look up unchanged. -/
theorem lookup_append_other {β : Type} (k k' : String) (v : β) (hne : k ≠ k') :
    ∀ (m : List (String × β)), (m ++ [(k', v)]).lookup k = m.lookup k := by
  intro m
  have hb : (k == k') = false := beq_eq_false_iff_ne.mpr hne
  induction m with
  | nil => simp [List.lookup, hb]
  | cons p m ih =>
    simp only [List.cons_append, List.lookup]
    cases hk : (k == p.1) with
    | true => rfl
    | false => exact ih

/-- Dropping a prefix cannot lengthen a list. -/
theorem dropWhile_length_le {α : Type} (p : α → Bool) :
    ∀ l : List α, (l.dropWhile p).length ≤ l.length := by
  intro l
  induction l with
  | nil => simp
  | cons a l ih =>
    rw [List.dropWhile_cons]
    by_cases h : p a = true
    · rw [if_pos h]
      exact le_trans ih (Nat.le_succ _)
    · rw [if_neg h]

/-- A slice up to a non-negative bound is a head slice. -/
theorem pySliceTo_nonneg (s : String) (n : Nat) :
    pySliceTo s ((n : Nat) : Int) = strHead n s := by
  unfold pySliceTo strHead
  rw [if_neg (by omega)]
  simp

/-- A slice from a negative bound `-n` (with `n` positive) is a tail slice
of the last `n` characters. -/
theorem pySliceFrom_neg (s : String) (n : Nat) (hn : 0 < n) :
    pySliceFrom s (-((n : Nat) : Int)) = strTail n s := by
  unfold pySliceFrom strTail
  rw [if_pos (by omega)]
  simp

/-! ### Every rendered block ends with a line terminator -/

/-- Each of the three renderers produces a block ending in a newline. -/
theorem fmtFun_ends (k : FmtKind) (e : Entry) : ∃ t, fmtFun k e = t ++ "\n" := by
  obtain ⟨fn, ln, nm, li⟩ := e
  cases k with
  | compact =>
    exact ⟨"  File \"" ++ fn ++ "\", in " ++ nm ++ " at line " ++ toString ln
      ++ lineSuffix li, rfl⟩
  | compressed =>
    exact ⟨"  " ++ (if 30 < fn.length then "[...]" ++ strTail 25 fn else fn) ++ ", "
      ++ nm ++ ", " ++ toString ln ++ lineSuffix li, rfl⟩
  | verbose =>
    cases li with
    | none => exact ⟨"  File \"" ++ fn ++ "\", line " ++ toString ln ++ ", in " ++ nm, rfl⟩
    | some l =>
      cases he : l.isEmpty with
      | true =>
        refine ⟨"  File \"" ++ fn ++ "\", line " ++ toString ln ++ ", in " ++ nm, ?_⟩
        simp [fmtFun, _format_line, he]
      | false =>
        refine ⟨(("  File \"" ++ fn ++ "\", line " ++ toString ln ++ ", in " ++ nm ++ "\n")
          ++ "    ") ++ pyStrip l, ?_⟩
        simp [fmtFun, _format_line, he]

/-- Every block `format_list` returns ends in a newline. -/
theorem format_list_blocks (l : List Entry) (mode : String) :
    ∀ b ∈ format_list l mode, ∃ t, b = t ++ "\n" := by
  intro b hb
  simp only [format_list, format_listS, List.mem_map] at hb
  obtain ⟨e, _, rfl⟩ := hb
  exact fmtFun_ends _ e

/-- The final summary line ends in a newline. -/
theorem final_line_ends (et : String) (vn : Bool) (vs : String) :
    ∃ t, _format_final_exc_line et vn vs = t ++ "\n" := by
  unfold _format_final_exc_line
  by_cases h : (vn || vs.isEmpty) = true
  · exact ⟨et, by simp [h]⟩
  · exact ⟨(et ++ ": ") ++ vs, by simp [h]⟩

/-- Every block `format_exception_only` returns ends in a newline. -/
theorem format_exception_only_blocks (etype : EType) (v : ExcValue) :
    ∀ b ∈ format_exception_only etype v, ∃ t, b = t ++ "\n" := by
  obtain ⟨vt, vn, vu⟩ := v
  intro b hb
  cases etype with
  | degenerate s =>
    have hbe : b = _format_final_exc_line s vn vt := List.mem_singleton.mp hb
    rw [hbe]; exact final_line_ends _ _ _
  | cls st isSyn =>
    cases isSyn with
    | false =>
      have hbe : b = _format_final_exc_line st vn vt := List.mem_singleton.mp hb
      rw [hbe]; exact final_line_ends _ _ _
    | true =>
      cases vu with
      | none =>
        have hbe : b = _format_final_exc_line st vn vt := List.mem_singleton.mp hb
        rw [hbe]; exact final_line_ends _ _ _
      | some d =>
        obtain ⟨mn, ms, dfn, dln, doff, dbl⟩ := d
        rcases List.mem_cons.mp hb with hbe | hb2
        · exact ⟨"  File \"" ++ seFilename dfn ++ "\", line " ++ toString dln, hbe⟩
        rcases List.mem_append.mp hb2 with hb3 | hb4
        · cases dbl with
          | none => exact absurd hb3 (List.not_mem_nil b)
          | some bl =>
            cases doff with
            | none =>
              have hbe : b = "    " ++ pyStrip bl ++ "\n" := List.mem_singleton.mp hb3
              exact ⟨"    " ++ pyStrip bl, hbe⟩
            | some off =>
              rcases List.mem_cons.mp hb3 with hbe | hb5
              · exact ⟨"    " ++ pyStrip bl, hbe⟩
              · have hbe : b = "    " ++ caretSpaces bl off ++ "^\n" :=
                  List.mem_singleton.mp hb5
                refine ⟨("    " ++ caretSpaces bl off) ++ "^", ?_⟩
                rw [hbe]
                conv_rhs => rw [String.append_assoc]
                rfl
        · have hbe : b = _format_final_exc_line st mn ms := List.mem_singleton.mp hb4
          rw [hbe]; exact final_line_ends _ _ _

/-! ### Claim theorems -/

/-- C10: when the `limit` argument is `None` and `sys.tracebacklimit` is
set, `extract_tb`, `extract_stack` and `print_tb` each use
`sys.tracebacklimit` as the effective entry limit; when the attribute is
absent, a `None` limit processes the whole chain. -/
theorem C10_sys_tracebacklimit (N : Int) (tb fs : List Frame) (sa : Bool) :
    extract_tb (some N) tb none sa = extract_tb none tb (some N) sa
    ∧ extract_stack (some N) fs none = extract_stack none fs (some N)
    ∧ print_tb (some N) tb none = print_tb none tb (some N)
    ∧ extract_tb none tb none sa = tb.map (tbEntry sa)
    ∧ extract_stack none fs none = (fs.map stackEntry).reverse
    ∧ print_tb none tb none = String.join (tb.map print_tb_entry) := by
  refine ⟨rfl, rfl, rfl, ?_, ?_, ?_⟩
  · simp [extract_tb, effectiveLimit, walk_none]
  · simp [extract_stack, effectiveLimit, walk_none]
  · simp [print_tb, effectiveLimit, walk_none]

/-- C5 (amended): with a non-negative limit `N`, both extraction paths
yield exactly `min N L` entries and all `L` entries with no limit; but the
entries kept differ: `extract_tb` keeps the oldest/outermost `min N L`
nodes (the traversal prefix), while `extract_stack` keeps the
newest/innermost `min N L` frames (the frame-chain prefix, reversed into
oldest-first order). -/
theorem C5_amended_limit_count (tb fs : List Frame) (sa : Bool) (N : Nat) :
    extract_tb none tb (some (N : Int)) sa = (tb.take N).map (tbEntry sa)
    ∧ (extract_tb none tb (some (N : Int)) sa).length = min N tb.length
    ∧ extract_tb none tb none sa = tb.map (tbEntry sa)
    ∧ extract_stack none fs (some (N : Int)) = ((fs.take N).map stackEntry).reverse
    ∧ (extract_stack none fs (some (N : Int))).length = min N fs.length
    ∧ extract_stack none fs none = (fs.map stackEntry).reverse := by
  have hN : (((N : Int)) - ((0 : Nat) : Int)).toNat = N := by simp
  have h1 : extract_tb none tb (some (N : Int)) sa = (tb.take N).map (tbEntry sa) := by
    rw [extract_tb, effectiveLimit, walk_some, hN]
  have h2 : extract_stack none fs (some (N : Int)) = ((fs.take N).map stackEntry).reverse := by
    rw [extract_stack, effectiveLimit, walk_some, hN]
  refine ⟨h1, ?_, ?_, h2, ?_, ?_⟩
  · rw [h1]; simp [List.length_take]
  · simp [extract_tb, effectiveLimit, walk_none]
  · rw [h2]; simp [List.length_take]
  · simp [extract_stack, effectiveLimit, walk_none]

/-- C5 (counterexample): on the live chain `[frameF, frameG, frameH]`
(innermost first; `frameH` is the oldest/outermost call), `extract_stack`
with limit 1 yields the newest entry, not the oldest one that heads the
unlimited extraction — so limiting does not prefer oldest/outermost
entries on the live-stack path. -/
theorem C5_counterexample :
    extract_stack none [frameF, frameG, frameH] (some 1) = [stackEntry frameF]
    ∧ extract_stack none [frameF, frameG, frameH] (some 1) ≠ [stackEntry frameH]
    ∧ (extract_stack none [frameF, frameG, frameH] none).head? = some (stackEntry frameH) :=
  by decide

/-- C6: both extraction paths yield oldest/outermost-call-first order:
live-stack extraction reverses its innermost-first traversal, traceback
extraction already traverses outermost-first; on the 3-level chain
`h -> g -> f` both yield `[h, g, f]` (call order), not the unwind order. -/
theorem C6_oldest_first_order (cs : List Frame) :
    extract_stack none cs.reverse none = cs.map stackEntry
    ∧ extract_tb none cs none false = cs.map (tbEntry false)
    ∧ (extract_stack none [frameF, frameG, frameH] none).map (fun e => e.name)
        = ["h", "g", "f"]
    ∧ (extract_tb none [frameH, frameG, frameF] none false).map (fun e => e.name)
        = ["h", "g", "f"]
    ∧ (["h", "g", "f"] : List String) ≠ ["f", "g", "h"] := by
  refine ⟨?_, ?_, by decide, by decide, by decide⟩
  · simp [extract_stack, effectiveLimit, walk_none]
  · simp [extract_tb, effectiveLimit, walk_none]

/-- C1 (counterexample): at a concrete exception with no traceback, the
bytes `print_exception` writes differ from the concatenation of
`format_exception`'s blocks — the printing path appends one extra line
terminator (`_print`'s default). -/
theorem C1_counterexample :
    print_exception none (EType.cls "ValueError" false) demoPlainVal [] none "compact" false
      ≠ String.join (format_exception none (EType.cls "ValueError" false) demoPlainVal []
          none "compact" false) := by decide

/-- C1 (amended): for every argument combination, the bytes
`print_exception` writes are exactly the concatenation of
`format_exception`'s blocks followed by one extra newline appended by the
printing helper's default terminator, and every produced block ends with a
line terminator. -/
theorem C1_amended_print_vs_format (sysTbLimit : Option Int) (etype : EType) (v : ExcValue)
    (tb : List Frame) (limit : Option Int) (tb_mode : String) (show_args : Bool) :
    print_exception sysTbLimit etype v tb limit tb_mode show_args
      = String.join (format_exception sysTbLimit etype v tb limit tb_mode show_args) ++ "\n"
    ∧ ∀ b ∈ format_exception sysTbLimit etype v tb limit tb_mode show_args,
        ∃ t, b = t ++ "\n" := by
  constructor
  · rfl
  · intro b hb
    rcases List.mem_append.mp hb with hb1 | hb1
    · cases ht : tb.isEmpty with
      | true =>
        rw [ht] at hb1
        exact absurd hb1 (List.not_mem_nil b)
      | false =>
        rw [ht] at hb1
        rcases List.mem_cons.mp hb1 with hbe | hb2
        · exact ⟨"Traceback (most recent call last):", by rw [hbe]; decide⟩
        · exact format_list_blocks _ _ b hb2
    · exact format_exception_only_blocks _ _ b hb1

/-- C1 (witness): the amended statement at a one-frame traceback with a
`ValueError`, and the membership instance for its final summary block. -/
theorem C1_amended_witness :
    print_exception none (EType.cls "ValueError" false) demoPlainVal [frameH] none
        "compact" false
      = String.join (format_exception none (EType.cls "ValueError" false) demoPlainVal
          [frameH] none "compact" false) ++ "\n"
    ∧ ∃ t, ("ValueError: boom\n" : String) = t ++ "\n" := by
  refine ⟨(C1_amended_print_vs_format none (EType.cls "ValueError" false) demoPlainVal
    [frameH] none "compact" false).1, ?_⟩
  exact (C1_amended_print_vs_format none (EType.cls "ValueError" false) demoPlainVal
    [frameH] none "compact" false).2 "ValueError: boom\n" (by decide)

/-- C3: a (identity-stripped) representation longer than 25 characters is
truncated to its first 12 characters (`s[:25/2]`), an ellipsis marker, and
its last 13 characters (`s[-25/2:]`, i.e. `s[(-25)/2:] = s[-13:]` under
Python 2 floor division); one of at most 25 characters is kept unchanged;
both results carry the `'='` prefix.  (The operation is a total
function.) -/
theorem C3_value_truncation (s : String) :
    (25 < s.length →
      _format_value s = "=" ++ (strHead 12 s ++ "......" ++ strTail 13 s)
      ∧ (strHead 12 s).length = 12
      ∧ (strTail 13 s).length = 13
      ∧ (strHead 12 s).data ++ s.data.drop 12 = s.data
      ∧ s.data.take (s.data.length - 13) ++ (strTail 13 s).data = s.data)
    ∧ (s.length ≤ 25 → _format_value s = "=" ++ s) := by
  constructor
  · intro h
    have hd : 25 < s.data.length := h
    have hcond : _MaxParamLength < s.length := h
    have e1 : Int.fdiv (_MaxParamLength : Int) 2 = ((12 : Nat) : Int) := by decide
    have e2 : Int.fdiv (-(_MaxParamLength : Int)) 2 = -((13 : Nat) : Int) := by decide
    have hv : _format_value s
        = "=" ++ (pySliceTo s (Int.fdiv (_MaxParamLength : Int) 2) ++ "......"
            ++ pySliceFrom s (Int.fdiv (-(_MaxParamLength : Int)) 2)) := by
      simp [_format_value, hcond]
    rw [e1, e2, pySliceTo_nonneg, pySliceFrom_neg s 13 (by decide)] at hv
    refine ⟨hv, ?_, ?_, ?_, ?_⟩
    · show (s.data.take 12).length = 12
      rw [List.length_take]
      omega
    · show (s.data.drop (s.data.length - 13)).length = 13
      rw [List.length_drop]
      omega
    · exact List.take_append_drop 12 s.data
    · exact List.take_append_drop (s.data.length - 13) s.data
  · intro h
    simp [_format_value, _MaxParamLength, Nat.not_lt.mpr h]

/-- C3 (witness): the truncation branch at a 30-character representation
(last 13 characters kept) and the identity branch at a 2-character one. -/
theorem C3_witness :
    _format_value "abcdefghijklmnopqrstuvwxyz0123"
      = "=" ++ (strHead 12 "abcdefghijklmnopqrstuvwxyz0123" ++ "......"
          ++ strTail 13 "abcdefghijklmnopqrstuvwxyz0123")
    ∧ _format_value "ab" = "=" ++ "ab" :=
  ⟨((C3_value_truncation "abcdefghijklmnopqrstuvwxyz0123").1 (by decide)).1,
   (C3_value_truncation "ab").2 (by decide)⟩

/-- C7: on a syntax-error class whose value unpacks as
`(message, (file, line, offset, badline))` (with a positive offset and a
present bad line), `format_exception_only` emits the file/line header, the
stripped bad line, a caret line whose caret sits after a prefix no longer
than the offset clamped to the line length and made of whitespace only
(whitespace preserved, other characters replaced by spaces), and a final
summary line built from the message; when the value does not unpack, it
emits only the generic summary line built from the original value. -/
theorem C7_syntax_error_block (st vt wt ms : String) (vn wn mn : Bool)
    (dfn : Option String) (dln off : Int) (bl : String) (hoff : 1 ≤ off) :
    (∃ caret : String,
      format_exception_only (EType.cls st true)
        (ExcValue.mk vt vn (some (SyntaxDetails.mk mn ms dfn dln (some off) (some bl))))
        = ["  File \"" ++ seFilename dfn ++ "\", line " ++ toString dln ++ "\n",
           "    " ++ pyStrip bl ++ "\n",
           "    " ++ caret ++ "^\n",
           _format_final_exc_line st mn ms]
      ∧ caret = caretSpaces bl off
      ∧ ((caret.length : Int) ≤ max 0 (min ((pyRstripNl bl).length : Int) off - 1))
      ∧ caret.data.all pyIsSpaceChar = true)
    ∧ format_exception_only (EType.cls st true) (ExcValue.mk wt wn none)
        = [_format_final_exc_line st wn wt] := by
  refine ⟨⟨caretSpaces bl off, rfl, rfl, ?_, ?_⟩, rfl⟩
  · have hmap : (caretSpaces bl off).length
        = ((pyLstrip (pySliceTo (pyRstripNl bl)
            (min ((pyRstripNl bl).length : Int) off - 1))).data).length := by
      show (List.map (fun c => if pyIsSpaceChar c then c else ' ')
        ((pyLstrip (pySliceTo (pyRstripNl bl)
          (min ((pyRstripNl bl).length : Int) off - 1))).data)).length = _
      rw [List.length_map]
    have hdrop : ∀ x : String, (pyLstrip x).data.length ≤ x.data.length := by
      intro x
      exact dropWhile_length_le _ _
    by_cases hc0 : (pyRstripNl bl).data.length = 0
    · have hdata : (pyRstripNl bl).data = [] := List.length_eq_zero.mp hc0
      have hslice : (pySliceTo (pyRstripNl bl)
          (min ((pyRstripNl bl).length : Int) off - 1)).data = [] := by
        unfold pySliceTo
        split <;> simp [hdata]
      have hz : (caretSpaces bl off).length = 0 := by
        rw [hmap]
        have := hdrop (pySliceTo (pyRstripNl bl)
          (min ((pyRstripNl bl).length : Int) off - 1))
        rw [hslice] at this
        simp only [List.length_nil, Nat.le_zero] at this
        exact this
      rw [hz]
      exact le_trans (by norm_num) (le_max_left 0 _)
    · have hc1 : 1 ≤ (pyRstripNl bl).data.length := Nat.one_le_iff_ne_zero.mpr hc0
      have hcl : ((pyRstripNl bl).length : Int) = ((pyRstripNl bl).data.length : Int) := rfl
      have hnn : 0 ≤ min ((pyRstripNl bl).length : Int) off - 1 := by
        have h1 : (1 : Int) ≤ ((pyRstripNl bl).length : Int) := by
          rw [hcl]; exact_mod_cast hc1
        have := le_min h1 hoff
        omega
      have hslice : (pySliceTo (pyRstripNl bl)
            (min ((pyRstripNl bl).length : Int) off - 1)).data.length
          ≤ (min ((pyRstripNl bl).length : Int) off - 1).toNat := by
        unfold pySliceTo
        rw [if_neg (by omega)]
        exact List.length_take_le _ _
      have hle : (caretSpaces bl off).length
          ≤ (min ((pyRstripNl bl).length : Int) off - 1).toNat := by
        rw [hmap]
        exact le_trans (hdrop _) hslice
      have : ((caretSpaces bl off).length : Int)
          ≤ min ((pyRstripNl bl).length : Int) off - 1 := by
        have := Int.ofNat_le.mpr hle
        rwa [Int.toNat_of_nonneg hnn] at this
      exact le_trans this (le_max_right 0 _)
  · simp only [caretSpaces, List.all_eq_true]
    intro c hc
    obtain ⟨x, _, rfl⟩ := List.mem_map.mp hc
    by_cases hx : pyIsSpaceChar x = true
    · rw [if_pos hx]
      exact hx
    · rw [if_neg hx]
      decide

/-- C7 (witness): the specification's caret example — message
`"invalid syntax"`, location `("f.py", 3, 5, "x == = 1\n")` — and the
unpack-failure case on a plain value. -/
theorem C7_witness :
    (∃ caret : String,
      format_exception_only (EType.cls "SyntaxError" true) demoSynVal
        = ["  File \"" ++ seFilename (some "f.py") ++ "\", line " ++ toString (3 : Int)
            ++ "\n",
           "    " ++ pyStrip "x == = 1\n" ++ "\n",
           "    " ++ caret ++ "^\n",
           _format_final_exc_line "SyntaxError" false "invalid syntax"]
      ∧ caret = caretSpaces "x == = 1\n" 5
      ∧ ((caret.length : Int) ≤ max 0 (min ((pyRstripNl "x == = 1\n").length : Int) 5 - 1))
      ∧ caret.data.all pyIsSpaceChar = true)
    ∧ format_exception_only (EType.cls "SyntaxError" true)
        (ExcValue.mk "boom" false none)
        = [_format_final_exc_line "SyntaxError" false "boom"] :=
  C7_syntax_error_block "SyntaxError" "invalid syntax" "boom" "invalid syntax" false false
    false (some "f.py") 3 5 "x == = 1\n" (by decide)

/-- C8: any mode string outside the three documented ones selects the
verbose renderer for every entry, without error, and yields the same
output as an explicit verbose-mode call. -/
theorem C8_unknown_mode_verbose (l : List Entry) (mode : String)
    (h1 : mode ≠ "verbose") (h2 : mode ≠ "compact") (h3 : mode ≠ "compressed") :
    format_list l mode = l.map _format_line
    ∧ format_list l mode = format_list l "verbose" := by
  have hb2 : (mode == "compact") = false := beq_eq_false_iff_ne.mpr h2
  have hb3 : (mode == "compressed") = false := beq_eq_false_iff_ne.mpr h3
  have hk : ddGet initFmtMap mode = (FmtKind.verbose, initFmtMap ++ [(mode, FmtKind.verbose)]) := by
    simp [ddGet, initFmtMap, List.lookup, hb2, hb3]
  have hu : format_list l mode = l.map (fmtFun (ddGet initFmtMap mode).1) := rfl
  have hv : format_list l "verbose" = l.map _format_line := rfl
  constructor
  · rw [hu, hk]
    rfl
  · rw [hu, hk, hv]
    rfl

/-- C8 (witness): the unknown mode `"plain"` on a one-entry list. -/
theorem C8_witness :
    format_list [stackEntry frameH] "plain" = [stackEntry frameH].map _format_line
    ∧ format_list [stackEntry frameH] "plain" = format_list [stackEntry frameH] "verbose" :=
  C8_unknown_mode_verbose [stackEntry frameH] "plain" (by decide) (by decide) (by decide)

/-- C9 (counterexample): looking up `"verbose"` — one of the three known
mode names — on the initial dispatch table does NOT leave the table
unchanged: `"verbose"` is not a preset key, so the `defaultdict` lookup
inserts it. -/
theorem C9_counterexample :
    (format_listS initFmtMap [] "verbose").2 ≠ initFmtMap := by decide

/-- C9 (amended): a `format_list` call whose mode is not a key of the
dispatch table inserts that mode, bound to the verbose renderer, as a new
last entry (one entry per distinct unknown mode, found by later lookups,
other keys untouched); a mode already present — such as the preset keys
`"compact"` and `"compressed"` — leaves the table unchanged; but
`"verbose"` itself is not a preset key, so its first lookup also inserts
it. -/
theorem C9_amended_dispatch_mutation (m : List (String × FmtKind)) (l : List Entry)
    (mode : String) (hm : m.lookup mode = none) :
    (format_listS m l mode).2 = m ++ [(mode, FmtKind.verbose)]
    ∧ ((format_listS m l mode).2).lookup mode = some FmtKind.verbose
    ∧ (∀ k, k ≠ mode → ((format_listS m l mode).2).lookup k = m.lookup k)
    ∧ (∀ k v, m.lookup k = some v → (format_listS m l k).2 = m)
    ∧ (format_listS initFmtMap l "compact").2 = initFmtMap
    ∧ (format_listS initFmtMap l "compressed").2 = initFmtMap
    ∧ (format_listS initFmtMap l "verbose").2 = initFmtMap ++ [("verbose", FmtKind.verbose)] := by
  have hgrow : (format_listS m l mode).2 = m ++ [(mode, FmtKind.verbose)] := by
    simp [format_listS, ddGet, hm]
  refine ⟨hgrow, ?_, ?_, ?_, rfl, rfl, rfl⟩
  · rw [hgrow]
    exact lookup_append_absent mode FmtKind.verbose m hm
  · intro k hk
    rw [hgrow]
    exact lookup_append_other k mode FmtKind.verbose hk m
  · intro k v hkv
    simp [format_listS, ddGet, hkv]

/-- C9 (witness): the amended statement at the initial table and the
unknown mode `"plain"`, including the present-key case for `"compact"`. -/
theorem C9_witness :
    (format_listS initFmtMap [] "plain").2 = initFmtMap ++ [("plain", FmtKind.verbose)]
    ∧ ((format_listS initFmtMap [] "plain").2).lookup "plain" = some FmtKind.verbose
    ∧ (format_listS initFmtMap [] "compact").2 = initFmtMap := by
  have h := C9_amended_dispatch_mutation initFmtMap [] "plain" (by decide)
  exact ⟨h.1, h.2.1, h.2.2.2.1 "compact" FmtKind.compact (by decide)⟩

/-- C2 (code bug): after patching with
`{tb_mode: 'compressed', show_args: true}`, the patched list-formatting
entry point called with just an extracted entry list raises `TypeError` —
`format_list`'s signature has no `show_args` parameter — instead of
formatting; the traceback entry point, whose signature does accept both
fixed keywords, works and equals the explicit call. -/
theorem C2_patched_format_list_type_error :
    patched_format_list "compressed" true [stackEntry frameH]
      = Except.error "TypeError: format_list() got an unexpected keyword argument"
    ∧ patched_format_tb none "compressed" true [frameH, frameG, frameF]
      = format_tb none [frameH, frameG, frameF] none "compressed" true :=
  ⟨rfl, rfl⟩

/-- C4 (code bug): traceback extraction with `show_args` true annotates the
function name with the argument formatter's output, but live-stack
extraction never does — `extract_stack` has no show-arguments parameter —
and reaching stack formatting with `show_args` true (`format_stack`, and
`print_stack` via `print_list`) raises `TypeError`, because the body passes
`show_args` as a third positional argument to the two-parameter
`format_list`. -/
theorem C4_stack_args_not_annotated :
    (extract_tb none [frameH] none true).map (fun e => e.name) = ["h(a=1, b=0)"]
    ∧ (extract_stack none [frameH] none).map (fun e => e.name) = ["h"]
    ∧ format_stack none [frameH] none "compact" true
        = Except.error "TypeError: format_list() takes at most 2 arguments"
    ∧ print_list [stackEntry frameH] "compact" true
        = Except.error "TypeError: format_list() takes at most 2 arguments" :=
  ⟨by decide, by decide, rfl, rfl⟩
